import Mathlib

/-!
Verification of the credentials service data model of edx-platform
(openedx/core/djangoapps/credentials_service).

The repository excerpt holds the relational schema
(migrations/0001_initial.py) and the model test suite (tests/test_models.py).
The schema is embedded below as Lean structures, one per CreateModel entry,
with the unique-together constraints and field choices taken verbatim from the
migration.  The store operations of the access layer (create, award, revoke,
attribute handling, uploads) are not part of the excerpt; each is modelled
from the specification and marked as such in its doc comment, while every
constraint they enforce (uniqueness keys, cascades, defaults, choices) comes
from the migration.
-/

/- ---------------------------------------------------------------------
   Field choices and defaults, verbatim from the migration
   --------------------------------------------------------------------- -/

/-- Choice pairs of CourseCertificate.certificate_type in the migration
(line 57): each pair is (stored value, human readable label), the Django
convention.  The migration writes them as
[(Honor, honor), (Verified, verified), (Professional, professional)]. -/
def course_certificate_type_choices : List (String × String) :=
  [("Honor", "honor"), ("Verified", "verified"), ("Professional", "professional")]

/-- Choice pairs of CertificateTemplate.certificate_type in the migration
(line 28); identical to the CourseCertificate list. -/
def certificate_template_type_choices : List (String × String) :=
  [("Honor", "honor"), ("Verified", "verified"), ("Professional", "professional")]

/-- Choice pairs of UserCredential.status in the migration (line 96). -/
def status_choices : List (String × String) :=
  [("awarded", "awarded"), ("revoked", "revoked")]

/-- Django choices validation (Field.validate, run by full_clean): a submitted
value is accepted exactly when it equals the stored value, the FIRST component,
of one of the choice pairs. -/
def validChoice (choices : List (String × String)) (s : String) : Prop :=
  ∃ c ∈ choices, c.1 = s

instance (choices : List (String × String)) (s : String) :
    Decidable (validChoice choices s) :=
  List.decidableBEx _ choices

/- ---------------------------------------------------------------------
   Entities, one structure per CreateModel of the migration.
   Timestamps (created, modified) play no part in any claim and are omitted;
   id columns are Nat; foreign keys are carried as the id of the target row.
   --------------------------------------------------------------------- -/

/-- CertificateTemplate row: name (indexed), content, optional
certificate_type (blank and null allowed), optional organization_id. -/
structure CertificateTemplate where
  id : Nat
  name : String
  content : String
  certificate_type : Option String
  organization_id : Option Int
  deriving Repr, DecidableEq

/-- CertificateTemplateAsset row: name and asset_file, the storage path
computed by template_assets_path from the row id and the uploaded filename. -/
structure CertificateTemplateAsset where
  id : Nat
  name : String
  asset_file : String
  deriving Repr, DecidableEq

/-- CourseCertificate row: is_active (default false), optional title override,
course_id (opaque course key, serialized), required certificate_type, site
foreign key.  Subject to UNIQUE(course_id, certificate_type, site). -/
structure CourseCertificate where
  id : Nat
  is_active : Bool
  title : Option String
  course_id : String
  certificate_type : String
  site : Nat
  deriving Repr, DecidableEq

/-- ProgramCertificate row: is_active (default false), optional title
override, program_id (positive integer, indexed), site foreign key.  The
migration declares no unique-together constraint on this table. -/
structure ProgramCertificate where
  id : Nat
  is_active : Bool
  title : Option String
  program_id : Nat
  site : Nat
  deriving Repr, DecidableEq

/-- Signatory row: name, title, image (storage path of the validated image,
computed by signatory_assets_path). -/
structure Signatory where
  id : Nat
  name : String
  title : String
  image : String
  deriving Repr, DecidableEq

/-- Discriminator of the polymorphic credential reference: the
credential_content_type foreign key of UserCredential resolves to either the
CourseCertificate table or the ProgramCertificate table. -/
inductive CredentialContentType where
  | courseCertificate
  | programCertificate
  deriving Repr, DecidableEq

/-- UserCredential row: credential_id (numeric id of the referenced
definition), username (indexed), status (choices awarded or revoked, default
awarded), optional download_url, uuid (default uuid.uuid4, editable False,
modelled as the 128-bit value it denotes), credential_content_type.  Subject
to UNIQUE(username, credential_content_type, credential_id). -/
structure UserCredential where
  id : Nat
  credential_id : Nat
  username : String
  status : String
  download_url : Option String
  uuid : Nat
  credential_content_type : CredentialContentType
  deriving Repr, DecidableEq

/-- UserCredentialAttribute row: a namespaced key/value annotation whose
user_credential foreign key points at a UserCredential row (on_delete of a
Django 1.x ForeignKey defaults to CASCADE). -/
structure UserCredentialAttribute where
  id : Nat
  «namespace» : String
  name : String
  value : String
  user_credential : Nat
  deriving Repr, DecidableEq

/-- Uploaded file handed to an image or file field: original filename,
content, and size in bytes. -/
structure UploadedFile where
  filename : String
  content : String
  size : Nat
  deriving Repr, DecidableEq

/-- The persistent store: one list of rows per table of the migration, the
file-storage backend as a path-to-content association list, and the next
AutoField id.  Each operation is a transaction returning its result together
with the successor store. -/
structure Store where
  certificateTemplates : List CertificateTemplate
  templateAssets : List CertificateTemplateAsset
  courseCertificates : List CourseCertificate
  programCertificates : List ProgramCertificate
  signatories : List Signatory
  userCredentials : List UserCredential
  userCredentialAttributes : List UserCredentialAttribute
  storageFiles : List (String × String)
  nextId : Nat
  deriving Repr, DecidableEq

/-- Error taxonomy of the store operations. -/
inductive StoreError where
  | DuplicateDefinition
  | DuplicateAward
  | UnknownDefinition
  | InvalidImage
  | NotFound
  deriving Repr, DecidableEq

/- ---------------------------------------------------------------------
   Key-existence predicates backing the uniqueness constraints
   --------------------------------------------------------------------- -/

/-- A CourseCertificate row with the given (course_id, certificate_type,
site) triple exists: the key of UNIQUE(course_id, certificate_type, site). -/
def courseTripleExists (st : Store) (cid ct : String) (site : Nat) : Prop :=
  ∃ c ∈ st.courseCertificates,
    c.course_id = cid ∧ c.certificate_type = ct ∧ c.site = site

instance (st : Store) (cid ct : String) (site : Nat) :
    Decidable (courseTripleExists st cid ct site) :=
  List.decidableBEx _ st.courseCertificates

/-- A UserCredential row with the given (username, credential_content_type,
credential_id) triple exists: the key of the unique-together constraint of
the usercredential table. -/
def awardKeyExists (st : Store) (un : String) (ct : CredentialContentType)
    (cid : Nat) : Prop :=
  ∃ u ∈ st.userCredentials,
    u.username = un ∧ u.credential_content_type = ct ∧ u.credential_id = cid

instance (st : Store) (un : String) (ct : CredentialContentType) (cid : Nat) :
    Decidable (awardKeyExists st un ct cid) :=
  List.decidableBEx _ st.userCredentials

/-- The polymorphic reference (content type, id) resolves to a row: a
CourseCertificate for the course discriminator, a ProgramCertificate for the
program discriminator. -/
def definitionExists (st : Store) (ct : CredentialContentType) (cid : Nat) : Prop :=
  match ct with
  | .courseCertificate => ∃ c ∈ st.courseCertificates, c.id = cid
  | .programCertificate => ∃ p ∈ st.programCertificates, p.id = cid

instance (st : Store) (ct : CredentialContentType) (cid : Nat) :
    Decidable (definitionExists st ct cid) := by
  cases ct <;> exact List.decidableBEx _ _

/-- A UserCredential row with the given id exists. -/
def credentialExists (st : Store) (credId : Nat) : Prop :=
  ∃ u ∈ st.userCredentials, u.id = credId

instance (st : Store) (credId : Nat) : Decidable (credentialExists st credId) :=
  List.decidableBEx _ st.userCredentials

/- ---------------------------------------------------------------------
   Schema-level invariants (the unique indexes of the migration)
   --------------------------------------------------------------------- -/

/-- The unique-together constraint of the coursecertificate table: no two
rows share the (course_id, certificate_type, site) triple. -/
def courseTriplesNodup (st : Store) : Prop :=
  (st.courseCertificates.map
    (fun c => (c.course_id, c.certificate_type, c.site))).Nodup

instance (st : Store) : Decidable (courseTriplesNodup st) := by
  unfold courseTriplesNodup; exact List.nodupDecidable _

/-- The unique-together constraint of the usercredential table: no two rows
share the (username, credential_content_type, credential_id) triple.  This is
the ONLY uniqueness constraint the migration places on the table. -/
def userCredentialKeysNodup (st : Store) : Prop :=
  (st.userCredentials.map
    (fun u => (u.username, u.credential_content_type, u.credential_id))).Nodup

instance (st : Store) : Decidable (userCredentialKeysNodup st) := by
  unfold userCredentialKeysNodup; exact List.nodupDecidable _

/-- Referential integrity of the attribute table: every
UserCredentialAttribute row points at an existing UserCredential row. -/
def attributesIntegrity (st : Store) : Prop :=
  ∀ a ∈ st.userCredentialAttributes, credentialExists st a.user_credential

instance (st : Store) : Decidable (attributesIntegrity st) :=
  List.decidableBAll _ st.userCredentialAttributes

/- ---------------------------------------------------------------------
   Store operations (modelled from the spec, constraints from the migration)
   --------------------------------------------------------------------- -/

/-- Modelled from the spec: create_course_certificate(course_id,
certificate_type, site, title) fails with DuplicateDefinition when a row with
the same (course_id, certificate_type, site) already exists, the check backed
by the unique index of the migration; otherwise it inserts the row with
is_active default false. -/
def create_course_certificate (st : Store) (cid ct : String) (site : Nat)
    (title : Option String) : Except StoreError CourseCertificate × Store :=
  if courseTripleExists st cid ct site then
    (.error .DuplicateDefinition, st)
  else
    let c : CourseCertificate :=
      { id := st.nextId, is_active := false, title := title,
        course_id := cid, certificate_type := ct, site := site }
    (.ok c, { st with courseCertificates := st.courseCertificates ++ [c],
                      nextId := st.nextId + 1 })

/-- Modelled from the spec: award(username, definition) fails with
UnknownDefinition when the polymorphic reference resolves to no definition
row, fails with DuplicateAward when a row with the same (username,
credential_content_type, credential_id) already exists (the unique index of
the migration), and otherwise inserts a row with status defaulted to awarded
and uuid the freshly generated 128-bit value, passed in as freshUuid since
the uuid4 source lives outside the store. -/
def award (st : Store) (un : String) (ct : CredentialContentType) (cid : Nat)
    (freshUuid : Nat) : Except StoreError UserCredential × Store :=
  if definitionExists st ct cid then
    if awardKeyExists st un ct cid then
      (.error .DuplicateAward, st)
    else
      let u : UserCredential :=
        { id := st.nextId, credential_id := cid, username := un,
          status := "awarded", download_url := none, uuid := freshUuid,
          credential_content_type := ct }
      (.ok u, { st with userCredentials := st.userCredentials ++ [u],
                        nextId := st.nextId + 1 })
  else
    (.error .UnknownDefinition, st)

/-- Modelled from the spec: revoke(user_credential) sets the status of the
row to revoked; revoking an already revoked credential is a no-op and raises
no error.  No other field of any row is touched. -/
def revoke (st : Store) (credId : Nat) : Store :=
  { st with userCredentials :=
      st.userCredentials.map fun u =>
        if u.id = credId then { u with status := "revoked" } else u }

/-- Modelled from the spec: set_attribute(user_credential, namespace, name,
value) appends a new attribute row for an existing credential; a missing
credential is a generic lookup miss (NotFound).  No uniqueness constraint
exists on (user_credential, namespace, name). -/
def set_attribute (st : Store) (credId : Nat) (ns nm v : String) :
    Except StoreError UserCredentialAttribute × Store :=
  if credentialExists st credId then
    let a : UserCredentialAttribute :=
      { id := st.nextId, «namespace» := ns, name := nm, value := v,
        user_credential := credId }
    (.ok a, { st with
      userCredentialAttributes := st.userCredentialAttributes ++ [a],
      nextId := st.nextId + 1 })
  else
    (.error .NotFound, st)

/-- Modelled from the spec: deleting a UserCredential row cascades to its
UserCredentialAttribute rows, the CASCADE being the on_delete default of the
Django 1.x ForeignKey declared in the migration. -/
def delete_user_credential (st : Store) (credId : Nat) : Store :=
  { st with
    userCredentials := st.userCredentials.filter (fun u => u.id ≠ credId),
    userCredentialAttributes :=
      st.userCredentialAttributes.filter (fun a => a.user_credential ≠ credId) }

/- ---------------------------------------------------------------------
   File storage backend and the upload operations
   --------------------------------------------------------------------- -/

/-- Store the content under the path, replacing any file already there. -/
def putFile (fs : List (String × String)) (path content : String) :
    List (String × String) :=
  fs.filter (fun pc => pc.1 ≠ path) ++ [(path, content)]

/-- Remove the file stored under the path, if any. -/
def deleteFile (fs : List (String × String)) (path : String) :
    List (String × String) :=
  fs.filter (fun pc => pc.1 ≠ path)

/-- Retrieve the content stored under the path. -/
def getFile (fs : List (String × String)) (path : String) : Option String :=
  (fs.find? (fun pc => pc.1 = path)).map Prod.snd

/-- Modelled from the spec: the storage path of a template asset is derived
from the row id and the original filename, as the test
test_asset_file_saving pins down:
credential_certificate_template_assets/{id}/{filename}. -/
def template_assets_path (id : Nat) (filename : String) : String :=
  "credential_certificate_template_assets/" ++ toString id ++ "/" ++ filename

/-- Modelled from the spec: the storage path of a signatory image is
signatories/{id}/{filename}, as the test test_signatory_file_saving pins
down. -/
def signatory_assets_path (id : Nat) (filename : String) : String :=
  "signatories/" ++ toString id ++ "/" ++ filename

/-- The byte threshold of the signatory image policy: the image field help
text of the migration says the file size should be under 250KB. -/
def image_size_threshold : Nat := 250 * 1024

/-- Modelled from the spec: create_signatory(name, title, image) fails with
InvalidImage when the image exceeds the size policy (validate_image, the
validator named by the migration); on success the image is stored at the
id-derived path and the row inserted. -/
def create_signatory (st : Store) (nm ti : String) (image : UploadedFile) :
    Except StoreError Signatory × Store :=
  if image.size > image_size_threshold then
    (.error .InvalidImage, st)
  else
    let path := signatory_assets_path st.nextId image.filename
    let s : Signatory := { id := st.nextId, name := nm, title := ti, image := path }
    (.ok s, { st with signatories := st.signatories ++ [s],
                      storageFiles := putFile st.storageFiles path image.content,
                      nextId := st.nextId + 1 })

/-- The asset record with the given logical name, if any. -/
def findAssetByName (st : Store) (nm : String) : Option CertificateTemplateAsset :=
  st.templateAssets.find? (fun a => a.name = nm)

/-- Modelled from the spec: upload_template_asset(name, file) stores the file
at the id-derived path; when a record with the same logical name exists, the
prior stored file is deleted, the new file stored, and the record updated to
reference it, as the test test_asset_file_saving exercises. -/
def upload_template_asset (st : Store) (nm : String) (file : UploadedFile) :
    Except StoreError CertificateTemplateAsset × Store :=
  match findAssetByName st nm with
  | some a =>
      let newPath := template_assets_path a.id file.filename
      let a2 := { a with asset_file := newPath }
      (.ok a2, { st with
        templateAssets :=
          st.templateAssets.map (fun b => if b.id = a.id then a2 else b),
        storageFiles :=
          putFile (deleteFile st.storageFiles a.asset_file) newPath file.content })
  | none =>
      let path := template_assets_path st.nextId file.filename
      let a : CertificateTemplateAsset :=
        { id := st.nextId, name := nm, asset_file := path }
      (.ok a, { st with templateAssets := st.templateAssets ++ [a],
                        storageFiles := putFile st.storageFiles path file.content,
                        nextId := st.nextId + 1 })

/-- The empty store, used by concrete witnesses. -/
def emptyStore : Store :=
  { certificateTemplates := [], templateAssets := [],
    courseCertificates := [], programCertificates := [],
    signatories := [], userCredentials := [],
    userCredentialAttributes := [], storageFiles := [], nextId := 1 }

example :
    ((create_course_certificate emptyStore "org/course/run" "Honor" 1 none).1).isOk
      = true := by decide

/- ---------------------------------------------------------------------
   Claims
   --------------------------------------------------------------------- -/

/-- Claim C1: for every (course_id, certificate_type, site) triple not yet in
the store, creating a CourseCertificate succeeds the first time, the second
creation with the same triple fails with DuplicateDefinition leaving the
store unchanged, and the unique-together constraint on (course_id,
certificate_type, site) is preserved, so the store never holds two rows with
the same triple. -/
theorem create_course_certificate_unique
    (st : Store) (cid ct : String) (site : Nat) (title : Option String)
    (hnew : ¬ courseTripleExists st cid ct site) :
    ∃ c st1,
      create_course_certificate st cid ct site title = (.ok c, st1) ∧
      create_course_certificate st1 cid ct site title
        = (.error .DuplicateDefinition, st1) ∧
      (courseTriplesNodup st → courseTriplesNodup st1) := by
  unfold create_course_certificate
  rw [if_neg hnew]
  refine ⟨_, _, rfl, ?_, ?_⟩
  · rw [if_pos]
    exact ⟨_, List.mem_append_right _ (List.mem_singleton_self _), rfl, rfl, rfl⟩
  · intro hnd
    unfold courseTriplesNodup at hnd ⊢
    simp only [List.map_append, List.map_cons, List.map_nil]
    rw [List.nodup_append]
    refine ⟨hnd, List.nodup_singleton _, ?_⟩
    intro x hx hx1
    simp only [List.mem_singleton] at hx1
    subst hx1
    rcases List.mem_map.mp hx with ⟨c, hc, he⟩
    simp only [Prod.mk.injEq] at he
    exact hnew ⟨c, hc, he.1, he.2.1, he.2.2⟩

/-- Witness for C1 at a concrete input: the empty store holds no triple, the
first creation succeeds and the second fails with DuplicateDefinition. -/
theorem create_course_certificate_unique_witness :
    ∃ c st1,
      create_course_certificate emptyStore "org/course/run" "Honor" 1 none
        = (.ok c, st1) ∧
      create_course_certificate st1 "org/course/run" "Honor" 1 none
        = (.error .DuplicateDefinition, st1) ∧
      (courseTriplesNodup emptyStore → courseTriplesNodup st1) :=
  create_course_certificate_unique emptyStore "org/course/run" "Honor" 1 none
    (by decide)

/-- Awarding changes no definition table: the polymorphic reference resolves
the same way in the store award produces. -/
theorem definitionExists_update (st : Store) (l : List UserCredential) (n : Nat)
    (ct : CredentialContentType) (cid : Nat) :
    definitionExists { st with userCredentials := l, nextId := n } ct cid
      ↔ definitionExists st ct cid := by
  cases ct <;> exact Iff.rfl

/-- A store holding one CourseCertificate (numeric id 1) and one
ProgramCertificate (also numeric id 1), used by concrete witnesses. -/
def storeWithDefinitions : Store :=
  { emptyStore with
    courseCertificates := [⟨1, false, none, "org/course/run", "Honor", 1⟩],
    programCertificates := [⟨1, false, none, 10, 1⟩],
    nextId := 2 }

/-- Claim C2: for every (username, definition) pair not yet awarded, award
succeeds the first time and the identical second call fails with
DuplicateAward leaving the store unchanged; the unique key being (username,
credential_content_type, credential_id) is preserved, and the same user may
still be awarded a definition of the OTHER content type carrying the very
same numeric id. -/
theorem award_unique_per_user_and_definition
    (st : Store) (un : String) (ct : CredentialContentType) (cid u1 u2 : Nat)
    (hdef : definitionExists st ct cid)
    (hnew : ¬ awardKeyExists st un ct cid) :
    ∃ u st1,
      award st un ct cid u1 = (.ok u, st1) ∧
      award st1 un ct cid u2 = (.error .DuplicateAward, st1) ∧
      (userCredentialKeysNodup st → userCredentialKeysNodup st1) ∧
      (∀ ct2, ct2 ≠ ct → definitionExists st ct2 cid →
        ¬ awardKeyExists st un ct2 cid →
        ∃ u2r st2, award st1 un ct2 cid u2 = (.ok u2r, st2)) := by
  unfold award
  rw [if_pos hdef, if_neg hnew]
  refine ⟨_, _, rfl, ?_, ?_, ?_⟩
  · rw [if_pos ((definitionExists_update st _ _ ct cid).mpr hdef)]
    rw [if_pos]
    exact ⟨_, List.mem_append_right _ (List.mem_singleton_self _), rfl, rfl, rfl⟩
  · intro hnd
    unfold userCredentialKeysNodup at hnd ⊢
    simp only [List.map_append, List.map_cons, List.map_nil]
    rw [List.nodup_append]
    refine ⟨hnd, List.nodup_singleton _, ?_⟩
    intro x hx hx1
    simp only [List.mem_singleton] at hx1
    subst hx1
    rcases List.mem_map.mp hx with ⟨v, hv, he⟩
    simp only [Prod.mk.injEq] at he
    exact hnew ⟨v, hv, he.1, he.2.1, he.2.2⟩
  · intro ct2 hne hdef2 hnew2
    rw [if_pos ((definitionExists_update st _ _ ct2 cid).mpr hdef2)]
    rw [if_neg]
    · exact ⟨_, _, rfl⟩
    · rintro ⟨v, hv, h1, h2, h3⟩
      rcases List.mem_append.mp hv with hv0 | hv0
      · exact hnew2 ⟨v, hv0, h1, h2, h3⟩
      · rw [List.mem_singleton] at hv0
        subst hv0
        exact hne h2.symm

/-- Witness for C2 at a concrete input: in the store holding both definition
variants with numeric id 1, awarding the course certificate to alice succeeds
once, fails the second time with DuplicateAward, and the program certificate
with the same numeric id can still be awarded. -/
theorem award_unique_per_user_and_definition_witness :
    ∃ u st1,
      award storeWithDefinitions "alice" .courseCertificate 1 42 = (.ok u, st1) ∧
      award st1 "alice" .courseCertificate 1 43
        = (.error .DuplicateAward, st1) ∧
      (userCredentialKeysNodup storeWithDefinitions
        → userCredentialKeysNodup st1) ∧
      (∀ ct2, ct2 ≠ .courseCertificate
        → definitionExists storeWithDefinitions ct2 1
        → ¬ awardKeyExists storeWithDefinitions "alice" ct2 1
        → ∃ u2r st2, award st1 "alice" ct2 1 43 = (.ok u2r, st2)) :=
  award_unique_per_user_and_definition storeWithDefinitions "alice"
    .courseCertificate 1 42 43 (by decide) (by decide)

/-- A store holding one awarded credential (row id 2) against the course
certificate of storeWithDefinitions, used by concrete witnesses. -/
def awardedStore : Store :=
  { storeWithDefinitions with
    userCredentials := [⟨2, 1, "alice", "awarded", none, 42, .courseCertificate⟩],
    nextId := 3 }

/-- Claim C3: revoke is idempotent: one call sets the status of the targeted
row to revoked, a second call on the same credential changes nothing and
raises no error (revoke is total); rows with a different id are untouched,
and the status column admits exactly the two states awarded and revoked. -/
theorem revoke_idempotent (st : Store) (i : Nat) :
    revoke (revoke st i) i = revoke st i ∧
    (∀ u ∈ (revoke st i).userCredentials, u.id = i → u.status = "revoked") ∧
    (∀ u ∈ (revoke st i).userCredentials, u.id ≠ i → u ∈ st.userCredentials) ∧
    (∀ s, validChoice status_choices s ↔ s = "awarded" ∨ s = "revoked") := by
  refine ⟨?_, ?_, ?_, ?_⟩
  · unfold revoke
    simp only [List.map_map]
    congr 1
    apply List.map_congr_left
    intro u _
    by_cases h : u.id = i <;> simp [h]
  · intro u hu hid
    unfold revoke at hu
    rcases List.mem_map.mp hu with ⟨v, _, rfl⟩
    by_cases h : v.id = i
    · simp [h]
    · simp only [if_neg h] at hid ⊢
      exact absurd hid h
  · intro u hu hid
    unfold revoke at hu
    rcases List.mem_map.mp hu with ⟨v, hv, rfl⟩
    by_cases h : v.id = i
    · simp only [if_pos h] at hid
      exact absurd h hid
    · simpa [if_neg h] using hv
  · intro s
    constructor
    · rintro ⟨c, hc, rfl⟩
      simp only [status_choices, List.mem_cons, List.mem_singleton] at hc
      rcases hc with rfl | rfl | h
      · exact Or.inl rfl
      · exact Or.inr rfl
      · exact absurd h (List.not_mem_nil c)
    · rintro (rfl | rfl)
      · exact ⟨("awarded", "awarded"), by simp [status_choices], rfl⟩
      · exact ⟨("revoked", "revoked"), by simp [status_choices], rfl⟩

/-- Witness for C3 at a concrete input: revoking the single awarded
credential of awardedStore twice equals revoking it once, and the revoked row
reads status revoked. -/
theorem revoke_idempotent_witness :
    revoke (revoke awardedStore 2) 2 = revoke awardedStore 2 ∧
    (∀ u ∈ (revoke awardedStore 2).userCredentials,
      u.id = 2 → u.status = "revoked") ∧
    (∀ u ∈ (revoke awardedStore 2).userCredentials,
      u.id ≠ 2 → u ∈ awardedStore.userCredentials) ∧
    (∀ s, validChoice status_choices s ↔ s = "awarded" ∨ s = "revoked") :=
  revoke_idempotent awardedStore 2

/-- A store holding one attribute row (id 3) attached to the awarded
credential of awardedStore, used by concrete witnesses. -/
def attributeStore : Store :=
  { awardedStore with
    userCredentialAttributes := [⟨3, "grade", "grade", "80", 2⟩],
    nextId := 4 }

/-- Claim C4: deleting a UserCredential deletes every attribute row that
references it, the result still satisfies referential integrity, and every
other mutating operation of the store (award, revoke, set_attribute)
preserves referential integrity, so no operation leaves an attribute row
referencing a missing credential. -/
theorem delete_user_credential_cascades (st : Store) (i : Nat)
    (hint : attributesIntegrity st) :
    (∀ a ∈ (delete_user_credential st i).userCredentialAttributes,
      a.user_credential ≠ i) ∧
    attributesIntegrity (delete_user_credential st i) ∧
    (∀ un ct cid uu, attributesIntegrity (award st un ct cid uu).2) ∧
    (∀ j, attributesIntegrity (revoke st j)) ∧
    (∀ cid ns nm v, attributesIntegrity (set_attribute st cid ns nm v).2) := by
  unfold attributesIntegrity credentialExists at hint ⊢
  refine ⟨?_, ?_, ?_, ?_, ?_⟩
  · intro a ha
    unfold delete_user_credential at ha
    exact of_decide_eq_true (List.mem_filter.mp ha).2
  · intro a ha
    unfold delete_user_credential at ha ⊢
    have ha2 := List.mem_filter.mp ha
    rcases hint a ha2.1 with ⟨u, hu, hui⟩
    refine ⟨u, List.mem_filter.mpr ⟨hu, ?_⟩, hui⟩
    have hne := of_decide_eq_true ha2.2
    rw [hui]
    exact decide_eq_true hne
  · intro un ct cid uu
    unfold award
    by_cases h1 : definitionExists st ct cid
    · rw [if_pos h1]
      by_cases h2 : awardKeyExists st un ct cid
      · rw [if_pos h2]
        exact hint
      · rw [if_neg h2]
        intro a ha
        rcases hint a ha with ⟨u, hu, hui⟩
        exact ⟨u, List.mem_append_left _ hu, hui⟩
    · rw [if_neg h1]
      exact hint
  · intro j a ha
    unfold revoke at ha ⊢
    rcases hint a ha with ⟨u, hu, hui⟩
    by_cases h : u.id = j
    · refine ⟨{ u with status := "revoked" }, ?_, hui⟩
      have : (fun v : UserCredential =>
          if v.id = j then { v with status := "revoked" } else v) u
          = { u with status := "revoked" } := by simp [h]
      exact this ▸ List.mem_map_of_mem _ hu
    · refine ⟨u, ?_, hui⟩
      have : (fun v : UserCredential =>
          if v.id = j then { v with status := "revoked" } else v) u = u := by
        simp [h]
      exact this ▸ List.mem_map_of_mem _ hu
  · intro cid ns nm v
    unfold set_attribute
    by_cases h : credentialExists st cid
    · rw [if_pos h]
      intro a ha
      rcases List.mem_append.mp ha with ha0 | ha0
      · exact hint a ha0
      · rw [List.mem_singleton] at ha0
        subst ha0
        exact h
    · rw [if_neg h]
      exact hint

/-- Witness for C4 at a concrete input: deleting credential 2 of
attributeStore removes its grade attribute and keeps referential integrity,
as do award, revoke and set_attribute. -/
theorem delete_user_credential_cascades_witness :
    (∀ a ∈ (delete_user_credential attributeStore 2).userCredentialAttributes,
      a.user_credential ≠ 2) ∧
    attributesIntegrity (delete_user_credential attributeStore 2) ∧
    (∀ un ct cid uu,
      attributesIntegrity (award attributeStore un ct cid uu).2) ∧
    (∀ j, attributesIntegrity (revoke attributeStore j)) ∧
    (∀ cid ns nm v,
      attributesIntegrity (set_attribute attributeStore cid ns nm v).2) :=
  delete_user_credential_cascades attributeStore 2 (by decide)

/-- Claim C5: awarding a credential against a definition that does not exist
fails with UnknownDefinition, for every username and every (definition type,
definition id) pair resolving to no CourseCertificate or ProgramCertificate
row; the store is unchanged. -/
theorem award_unknown_definition (st : Store) (un : String)
    (ct : CredentialContentType) (cid uu : Nat)
    (h : ¬ definitionExists st ct cid) :
    award st un ct cid uu = (.error .UnknownDefinition, st) := by
  unfold award
  rw [if_neg h]

/-- Witness for C5 at a concrete input: the empty store holds no definition,
so awarding fails with UnknownDefinition. -/
theorem award_unknown_definition_witness :
    award emptyStore "alice" .courseCertificate 1 42
      = (.error .UnknownDefinition, emptyStore) :=
  award_unknown_definition emptyStore "alice" .courseCertificate 1 42 (by decide)

/-- Claim C6: every successful award creates a UserCredential with status
awarded and the freshly generated uuid; under the freshness contract of the
uuid4 generator (the supplied value occurs in no existing row) that uuid
identifies the new row uniquely in the store, award alters no existing row,
and revoke never changes the uuid column of any row of any store. -/
theorem award_sets_fresh_uuid (st : Store) (un : String)
    (ct : CredentialContentType) (cid uu : Nat) (u : UserCredential)
    (st1 : Store)
    (hok : award st un ct cid uu = (.ok u, st1))
    (hfresh : ∀ v ∈ st.userCredentials, v.uuid ≠ uu) :
    u.status = "awarded" ∧ u.uuid = uu ∧
    (∀ v ∈ st1.userCredentials, v.uuid = uu → v = u) ∧
    (∀ v ∈ st1.userCredentials, v = u ∨ v ∈ st.userCredentials) ∧
    (∀ st2 j, ((revoke st2 j).userCredentials.map fun v => v.uuid)
      = st2.userCredentials.map fun v => v.uuid) := by
  unfold award at hok
  by_cases h1 : definitionExists st ct cid
  · rw [if_pos h1] at hok
    by_cases h2 : awardKeyExists st un ct cid
    · rw [if_pos h2] at hok
      exact absurd hok (by simp)
    · rw [if_neg h2] at hok
      simp only [Prod.mk.injEq, Except.ok.injEq] at hok
      obtain ⟨rfl, rfl⟩ := hok
      refine ⟨rfl, rfl, ?_, ?_, ?_⟩
      · intro v hv hvu
        rcases List.mem_append.mp hv with hv0 | hv0
        · exact absurd hvu (hfresh v hv0)
        · exact List.mem_singleton.mp hv0
      · intro v hv
        rcases List.mem_append.mp hv with hv0 | hv0
        · exact Or.inr hv0
        · exact Or.inl (List.mem_singleton.mp hv0)
      · intro st2 j
        unfold revoke
        rw [List.map_map]
        apply List.map_congr_left
        intro v _
        by_cases h : v.id = j <;> simp [h]
  · rw [if_neg h1] at hok
    exact absurd hok (by simp)

/-- Witness for C6 at a concrete input: awarding the course certificate of
storeWithDefinitions to alice with fresh uuid 42 yields exactly the awarded
row of awardedStore, whose status is awarded and whose uuid is 42. -/
theorem award_sets_fresh_uuid_witness :
    (⟨2, 1, "alice", "awarded", none, 42, .courseCertificate⟩
        : UserCredential).status = "awarded" ∧
    (⟨2, 1, "alice", "awarded", none, 42, .courseCertificate⟩
        : UserCredential).uuid = 42 ∧
    (∀ v ∈ awardedStore.userCredentials, v.uuid = 42 →
      v = ⟨2, 1, "alice", "awarded", none, 42, .courseCertificate⟩) ∧
    (∀ v ∈ awardedStore.userCredentials,
      v = ⟨2, 1, "alice", "awarded", none, 42, .courseCertificate⟩ ∨
      v ∈ storeWithDefinitions.userCredentials) ∧
    (∀ st2 j, ((revoke st2 j).userCredentials.map fun v => v.uuid)
      = st2.userCredentials.map fun v => v.uuid) :=
  award_sets_fresh_uuid storeWithDefinitions "alice" .courseCertificate 1 42
    ⟨2, 1, "alice", "awarded", none, 42, .courseCertificate⟩ awardedStore
    (by rfl) (by decide)

/-- Claim C7: for every image whose size exceeds the configured byte
threshold, create_signatory fails with InvalidImage and returns the store
unchanged: no Signatory row and no stored file is persisted. -/
theorem create_signatory_invalid_image (st : Store) (nm ti : String)
    (image : UploadedFile) (h : image.size > image_size_threshold) :
    create_signatory st nm ti image = (.error .InvalidImage, st) := by
  unfold create_signatory
  rw [if_pos h]

/-- Witness for C7 at a concrete input: a 300KB image exceeds the 250KB
threshold, so create_signatory fails with InvalidImage on the empty store and
leaves it untouched. -/
theorem create_signatory_invalid_image_witness :
    create_signatory emptyStore "test_signatory" "Test Signatory"
      ⟨"large.png", "big image contents", 300 * 1024⟩
      = (.error .InvalidImage, emptyStore) :=
  create_signatory_invalid_image emptyStore "test_signatory" "Test Signatory"
    ⟨"large.png", "big image contents", 300 * 1024⟩ (by decide)

/-- Looking up the path just written into the storage backend returns the
content just written. -/
theorem getFile_putFile (fs : List (String × String)) (p c : String) :
    getFile (putFile fs p c) p = some c := by
  unfold getFile putFile
  rw [List.find?_append]
  have hleft : (fs.filter fun pc => pc.1 ≠ p).find? (fun pc => pc.1 = p)
      = none := by
    rw [List.find?_eq_none]
    intro pc hpc
    have h2 := (List.mem_filter.mp hpc).2
    simp only [ne_eq, decide_not, Bool.not_eq_eq_eq_not, Bool.not_true,
      decide_eq_false_iff_not] at h2
    simpa using h2
  rw [hleft]
  simp [List.find?]

/-- The path just overwritten no longer yields any content other than the
newly written one. -/
theorem getFile_putFile_ne (fs : List (String × String)) (p c c0 : String)
    (h : c0 ≠ c) : getFile (putFile fs p c) p ≠ some c0 := by
  rw [getFile_putFile]
  intro h2
  exact h (Option.some.inj h2).symm

/-- First upload under a fresh logical name: the record is created with the
id-derived path and the file content stored there. -/
theorem upload_template_asset_fresh (st : Store) (nm : String)
    (file : UploadedFile) (hnone : findAssetByName st nm = none) :
    ∃ st1,
      upload_template_asset st nm file =
        (.ok ⟨st.nextId, nm, template_assets_path st.nextId file.filename⟩,
         st1) ∧
      st1.templateAssets = st.templateAssets
        ++ [⟨st.nextId, nm, template_assets_path st.nextId file.filename⟩] ∧
      st1.storageFiles = putFile st.storageFiles
        (template_assets_path st.nextId file.filename) file.content := by
  unfold upload_template_asset
  rw [hnone]
  exact ⟨_, rfl, rfl, rfl⟩

/-- Upload under an existing logical name: the record keeps its id, the old
stored file is deleted and the new one stored at the id-derived path. -/
theorem upload_template_asset_existing (st : Store) (nm : String)
    (a : CertificateTemplateAsset) (file : UploadedFile)
    (hfind : findAssetByName st nm = some a) :
    ∃ st2,
      upload_template_asset st nm file =
        (.ok ⟨a.id, a.name, template_assets_path a.id file.filename⟩, st2) ∧
      st2.storageFiles = putFile (deleteFile st.storageFiles a.asset_file)
        (template_assets_path a.id file.filename) file.content := by
  unfold upload_template_asset
  rw [hfind]
  exact ⟨_, rfl, rfl⟩

/-- Claim C8: uploading a template asset twice under the same logical name
replaces the stored file: the second upload keeps the record id, resolves to
the id-derived path credential_certificate_template_assets/id/filename,
the storage backend holds the new content there, and the old content is no
longer retrievable at its former path. -/
theorem upload_template_asset_replaces (st : Store) (nm f c1 c2 : String)
    (sz1 sz2 : Nat) (hnone : findAssetByName st nm = none) (hneq : c1 ≠ c2) :
    ∃ a st1 a2 st2,
      upload_template_asset st nm ⟨f, c1, sz1⟩ = (.ok a, st1) ∧
      upload_template_asset st1 nm ⟨f, c2, sz2⟩ = (.ok a2, st2) ∧
      a2.id = a.id ∧
      a2.asset_file = template_assets_path a.id f ∧
      getFile st2.storageFiles (template_assets_path a.id f) = some c2 ∧
      getFile st2.storageFiles a.asset_file ≠ some c1 := by
  have hnone' : st.templateAssets.find? (fun a => a.name = nm) = none := hnone
  obtain ⟨st1, e1, hta1, hsf1⟩ :=
    upload_template_asset_fresh st nm ⟨f, c1, sz1⟩ hnone
  have hfind1 : findAssetByName st1 nm
      = some ⟨st.nextId, nm, template_assets_path st.nextId f⟩ := by
    unfold findAssetByName
    rw [hta1, List.find?_append, hnone', Option.none_or]
    exact List.find?_cons_of_pos _ (by simp)
  obtain ⟨st2, e2, hsf2⟩ :=
    upload_template_asset_existing st1 nm _ ⟨f, c2, sz2⟩ hfind1
  refine ⟨_, st1, _, st2, e1, e2, rfl, rfl, ?_, ?_⟩
  · rw [hsf2]
    exact getFile_putFile _ _ _
  · rw [hsf2]
    exact getFile_putFile_ne _ _ _ _ (fun h => hneq h)

/-- Witness for C8 at a concrete input: uploading picture1.jpg twice under
the logical name of the repository test replaces the stored file with the new
content at credential_certificate_template_assets/1/picture1.jpg. -/
theorem upload_template_asset_replaces_witness :
    ∃ a st1 a2 st2,
      upload_template_asset emptyStore "test name"
        ⟨"picture1.jpg", "file contents!", 14⟩ = (.ok a, st1) ∧
      upload_template_asset st1 "test name"
        ⟨"picture1.jpg", "file contents", 13⟩ = (.ok a2, st2) ∧
      a2.id = a.id ∧
      a2.asset_file = template_assets_path a.id "picture1.jpg" ∧
      getFile st2.storageFiles (template_assets_path a.id "picture1.jpg")
        = some "file contents" ∧
      getFile st2.storageFiles a.asset_file ≠ some "file contents!" :=
  upload_template_asset_replaces emptyStore "test name" "picture1.jpg"
    "file contents!" "file contents" 14 13 (by rfl) (by decide)

/-- Claim C9 (code bug): Django choices validation accepts exactly the first
component of each choice pair, the stored value; the migration writes the
pairs as (Honor, honor), (Verified, verified), (Professional, professional),
so the capitalized strings validate while the lowercase enum values named by
the spec, and stored by the repository tests themselves, are rejected — on
CourseCertificate.certificate_type and CertificateTemplate.certificate_type
alike. -/
theorem certificate_type_choices_reversed :
    ¬ validChoice course_certificate_type_choices "honor" ∧
    ¬ validChoice course_certificate_type_choices "verified" ∧
    ¬ validChoice course_certificate_type_choices "professional" ∧
    validChoice course_certificate_type_choices "Honor" ∧
    validChoice course_certificate_type_choices "Verified" ∧
    validChoice course_certificate_type_choices "Professional" ∧
    ¬ validChoice certificate_template_type_choices "honor" ∧
    validChoice certificate_template_type_choices "Honor" := by decide

/-- A store satisfying every uniqueness constraint of the migration while
holding two distinct UserCredential rows (alice and bob, rows 2 and 3) whose
uuid values are both 42. -/
def duplicateUuidStore : Store :=
  { storeWithDefinitions with
    userCredentials :=
      [⟨2, 1, "alice", "awarded", none, 42, .courseCertificate⟩,
       ⟨3, 1, "bob", "awarded", none, 42, .courseCertificate⟩],
    nextId := 4 }

/-- Claim C10: the schema enforces no uniqueness on UserCredential.uuid: a
store satisfying the unique-together constraint on (username,
credential_content_type, credential_id) — the only unique constraint the
migration places on the usercredential table — together with the
coursecertificate constraint and referential integrity still admits two
distinct credential rows with equal uuid values. -/
theorem usercredential_uuid_not_unique :
    userCredentialKeysNodup duplicateUuidStore ∧
    courseTriplesNodup duplicateUuidStore ∧
    attributesIntegrity duplicateUuidStore ∧
    ∃ u1 ∈ duplicateUuidStore.userCredentials,
      ∃ u2 ∈ duplicateUuidStore.userCredentials,
        u1.uuid = u2.uuid ∧ u1 ≠ u2 := by decide
